import Mathlib

/-
Verification of the pool-state synchronization core of a multi-DEX
arbitrage bot.  The Rust sources are shallowly embedded: hash maps and
hash sets become association lists and duplicate-free lists, `u64`
quantities become `Nat`, `rust_decimal::Decimal` (arbitrary-precision
decimal per the data model) becomes `Rat`, fallible functions return
`Except BotError`, and methods taking `&mut self` return a
`Except BotError Unit × State` pair so that mutations performed before
an early `return Err` are preserved, exactly as in the source.
The ambient wall clock (`now()`) is passed as an explicit parameter.
-/

/-- Milliseconds since epoch, `pub type Timestamp = u64`. -/
abbrev Timestamp := Nat

/-- Supported DEX identifiers (src/types/common.rs). -/
inductive DexId where
  | Cetus
  | Turbos
  | Kriya
deriving DecidableEq, Repr

/-- `DexId::name`, also its `Display` rendering. -/
def DexId.name : DexId → String
  | .Cetus => "Cetus"
  | .Turbos => "Turbos"
  | .Kriya => "Kriya"

/-- `SuiAddress(ObjectID)`: the 32-byte object id modelled as an opaque `Nat`. -/
structure SuiAddress where
  id : Nat
deriving DecidableEq, Repr

/-- `ChainAddress` (src/types/address.rs); `AptosAddress` wraps a string. -/
inductive ChainAddress where
  | Sui (addr : SuiAddress)
  | Aptos (addr : String)
deriving DecidableEq, Repr

/-- `pub type PoolId = ChainAddress` (src/types/pool/pool_state.rs). -/
abbrev PoolId := ChainAddress

/-- The variants of `BotError` (src/types/error.rs) exercised by the
synchronization core. -/
inductive BotError where
  | Dex (dex : DexId) (message : String)
  | Sync (msg : String)
  | Parse (msg : String)
  | NotFound (msg : String)
  | Config (msg : String)
deriving DecidableEq, Repr

instance {ε α : Type} [DecidableEq ε] [DecidableEq α] :
    DecidableEq (Except ε α) := fun a b =>
  match a, b with
  | .error e1, .error e2 =>
      if h : e1 = e2 then .isTrue (by rw [h])
      else .isFalse (fun hh => h (Except.error.inj hh))
  | .error _, .ok _ => .isFalse (fun hh => Except.noConfusion hh)
  | .ok _, .error _ => .isFalse (fun hh => Except.noConfusion hh)
  | .ok v1, .ok v2 =>
      if h : v1 = v2 then .isTrue (by rw [h])
      else .isFalse (fun hh => h (Except.ok.inj hh))

/-- `rust_decimal::Decimal`: per the data model an exact decimal number,
modelled as an exact rational. -/
abbrev Decimal := Rat

/-- `TokenInfo` (src/types/common.rs). -/
structure TokenInfo where
  symbol : String
  address : Option String
  decimals : Nat
  name : Option String
deriving DecidableEq, Repr

/-- `PoolState` (src/types/pool/pool_state.rs). -/
structure PoolState where
  dex_id : DexId
  pool_id : PoolId
  token_a : TokenInfo
  token_b : TokenInfo
  reserve_a : Decimal
  reserve_b : Decimal
  liquidity : Decimal
  fee_rate : Decimal
  block_timestamp : Timestamp
deriving DecidableEq, Repr

/-- `s` contains `sub` as a contiguous substring. -/
def containsStr (s sub : String) : Prop :=
  ∃ l r, s = l ++ sub ++ r

/-- `HashSet::insert`: add the element unless already present. -/
def insertSet (l : List PoolId) (p : PoolId) : List PoolId :=
  if p ∈ l then l else l ++ [p]

/-- `HashMap::insert`: overwrite the binding of the key if present,
otherwise add one. -/
def insertAssoc : List (PoolId × DexId) → PoolId → DexId → List (PoolId × DexId)
  | [], p, d => [(p, d)]
  | (k, v) :: rest, p, d =>
      if k = p then (p, d) :: rest else (k, v) :: insertAssoc rest p d

/-- `HashMap::get` on the pool→DEX index. -/
def lookupAssoc : List (PoolId × DexId) → PoolId → Option DexId
  | [], _ => none
  | (k, v) :: rest, p => if k = p then some v else lookupAssoc rest p

/-- `DexManager` (src/dex/manager.rs).  The `dexes` map is modelled by its
key list (the boxed `DexState` values play no role in the claims); the
`HashSet` of monitored pools by a duplicate-free list. -/
structure DexManager where
  dexes : List DexId
  pool_to_dex : List (PoolId × DexId)
  monitored_pools : List PoolId
  max_pools_per_dex : Nat
  state_ttl : Nat
  last_sync_time : Timestamp
  sync_failures : Nat
deriving DecidableEq, Repr

namespace DexManager

/-- `DexManager::new`; `now()` is the explicit clock argument. -/
def new (t : Timestamp) : DexManager :=
  { dexes := []
    pool_to_dex := []
    monitored_pools := []
    max_pools_per_dex := 2 ^ 64 - 1
    state_ttl := 3600
    last_sync_time := t
    sync_failures := 0 }

/-- `DexManager::with_config`. -/
def with_config (max_pools_per_dex : Nat) (state_ttl : Nat) (t : Timestamp) :
    DexManager :=
  { new t with max_pools_per_dex := max_pools_per_dex, state_ttl := state_ttl }

/-- `DexManager::register_dex`, keyed by the adapter's `dex_id()`. -/
def register_dex (m : DexManager) (dex_id : DexId) :
    Except BotError Unit × DexManager :=
  if dex_id ∈ m.dexes then
    (.error (.Dex dex_id ("DEX " ++ dex_id.name ++ " already registered")), m)
  else
    (.ok (), { m with dexes := m.dexes ++ [dex_id] })

/-- `DexManager::register_pool`. -/
def register_pool (m : DexManager) (dex_id : DexId) (pool_id : PoolId) :
    Except BotError Unit × DexManager :=
  if dex_id ∉ m.dexes then
    (.error (.Dex dex_id ("DEX " ++ dex_id.name ++ " not registered")), m)
  else if m.max_pools_per_dex * m.dexes.length ≤ m.monitored_pools.length then
    (.error (.Dex dex_id "Maximum monitored pools limit reached"), m)
  else
    (.ok (), { m with
        pool_to_dex := insertAssoc m.pool_to_dex pool_id dex_id
        monitored_pools := insertSet m.monitored_pools pool_id })

/-- `DexManager::register_pools`: sequential registration, stopping at the
first failure; earlier mutations persist (`&mut self`). -/
def register_pools (m : DexManager) (dex_id : DexId) :
    List PoolId → Except BotError Unit × DexManager
  | [] => (.ok (), m)
  | p :: ps =>
      match register_pool m dex_id p with
      | (.error e, m1) => (.error e, m1)
      | (.ok _, m1) => register_pools m1 dex_id ps

/-- `DexManager::get_monitored_pools`. -/
def get_monitored_pools (m : DexManager) : List PoolId :=
  m.monitored_pools

/-- `DexManager::get_stale_pools` — the source returns every monitored
pool, with no TTL comparison. -/
def get_stale_pools (m : DexManager) : List PoolId :=
  m.get_monitored_pools

/-- `DexManager::get_monitored_dex_by_pool_id`. -/
def get_monitored_dex_by_pool_id (m : DexManager) (pool_id : PoolId) :
    Option DexId :=
  lookupAssoc m.pool_to_dex pool_id

end DexManager

/-- `SuiMoveValue` (the variants the extractor distinguishes; `Number`
carries the SDK's `u32` payload). -/
inductive MoveVal where
  | Number (n : Nat)
  | Str (s : String)
  | Boolean (b : Bool)
deriving DecidableEq, Repr

/-- `SuiMoveStruct`. -/
inductive MoveStruct where
  | WithFields (fields : List (String × MoveVal))
  | WithTypes (ty : String) (fields : List (String × MoveVal))
  | Runtime (vals : List MoveVal)
deriving DecidableEq, Repr

/-- `SuiParsedData`. -/
inductive ParsedData where
  | MoveObject (fields : MoveStruct)
  | Package
deriving DecidableEq, Repr

/-- `SuiObjectData`, restricted to the fields the core reads; the object
id is an opaque `Nat` and the type tag its rendered string. -/
structure RawObject where
  object_id : Nat
  type_ : Option String
  content : Option ParsedData
deriving DecidableEq, Repr

/-- `BTreeMap::get` over the decoded field map. -/
def getMoveField : List (String × MoveVal) → String → Option MoveVal
  | [], _ => none
  | (k, v) :: rest, f => if k = f then some v else getMoveField rest f

/-- `sub` is a prefix of the character list (`str::starts_with`). -/
def isPreChars : List Char → List Char → Bool
  | [], _ => true
  | _ :: _, [] => false
  | a :: as, b :: bs => a = b && isPreChars as bs

/-- `str::starts_with` on strings. -/
def strStarts (s sub : String) : Bool :=
  isPreChars sub.toList s.toList

/-- `str::trim` on a character list: strip leading and trailing
whitespace. -/
def trimChars (cs : List Char) : List Char :=
  ((cs.dropWhile Char.isWhitespace).reverse.dropWhile
    Char.isWhitespace).reverse

/-- `str::trim` on strings. -/
def strTrim (s : String) : String :=
  String.mk (trimChars s.toList)

/-- `str::split(',')`: split at every comma, keeping empty pieces. -/
def splitComma : List Char → List (List Char)
  | [] => [[]]
  | c :: cs =>
      if c = (',') then [] :: splitComma cs
      else
        match splitComma cs with
        | [] => [[c]]
        | h :: t => (c :: h) :: t

/-- `str::split("::")`: split at every non-overlapping `::`, keeping
empty pieces. -/
def splitDColon : List Char → List (List Char)
  | [] => [[]]
  | [c] => [[c]]
  | c1 :: c2 :: cs =>
      if c1 = (':') ∧ c2 = (':') then [] :: splitDColon cs
      else
        match splitDColon (c2 :: cs) with
        | [] => [[c1]]
        | h :: t => (c1 :: h) :: t

/-- `str::split(',')` on strings. -/
def splitOnComma (s : String) : List String :=
  (splitComma s.toList).map String.mk

/-- `str::split("::")` on strings. -/
def splitOnDColon (s : String) : List String :=
  (splitDColon s.toList).map String.mk

/-- Decimal digits to a number; `none` on empty or non-digit input
(`str::parse` semantics, sign prefixes aside). -/
def charsToNat : List Char → Nat → Option Nat
  | [], acc => some acc
  | c :: cs, acc =>
      if c.isDigit then charsToNat cs (acc * 10 + (c.toNat - 48)) else none

/-- `str::parse` of a nonnegative integer, unbounded. -/
def strToNat (s : String) : Option Nat :=
  match s.toList with
  | [] => none
  | cs => charsToNat cs 0

/-- `str::parse::<u64>`: digits only, rejecting values outside `u64`. -/
def parseU64 (s : String) : Option Nat :=
  match strToNat s with
  | some n => if n < 2 ^ 64 then some n else none
  | none => none

/-- `str::parse::<u128>`. -/
def parseU128 (s : String) : Option Nat :=
  match strToNat s with
  | some n => if n < 2 ^ 128 then some n else none
  | none => none

namespace FieldExtractor

/-- `FieldExtractor::new` / `extract_fields` (src/types/pool/extractor.rs). -/
def extract_fields (obj : RawObject) : Except BotError (List (String × MoveVal)) :=
  match obj.content with
  | none => .error (.Parse "Missing content")
  | some (.MoveObject mo) =>
      match mo with
      | .WithFields fields => .ok fields
      | .WithTypes _ fields => .ok fields
      | _ => .error (.Parse "Unexpected struct format")
  | some _ => .error (.Parse "Not a Move object")

/-- `FieldExtractor::get_u64`: the `Number` payload is a `u32`, so its
conversion to `u64` cannot fail. -/
def get_u64 (fields : List (String × MoveVal)) (object_id : String)
    (field : String) : Except BotError Nat :=
  match getMoveField fields field with
  | none =>
      .error (.Parse ("Missing u64 field '" ++ field ++ "' in " ++ object_id))
  | some (.Number n) => .ok n
  | some (.Str s) =>
      match parseU64 s with
      | some n => .ok n
      | none =>
          .error (.Parse ("Invalid string '" ++ s ++ "' for u64 field '" ++
            field ++ "' in " ++ object_id))
  | some v =>
      .error (.Parse ("Invalid type " ++ reprStr v ++ " for u64 field '" ++
        field ++ "' in " ++ object_id))

/-- `FieldExtractor::get_u128`. -/
def get_u128 (fields : List (String × MoveVal)) (object_id : String)
    (field : String) : Except BotError Nat :=
  match getMoveField fields field with
  | none =>
      .error (.Parse ("Missing u128 field '" ++ field ++ "' in " ++ object_id))
  | some (.Number n) => .ok n
  | some (.Str s) =>
      match parseU128 s with
      | some n => .ok n
      | none =>
          .error (.Parse ("Invalid string '" ++ s ++ "' for u128 field '" ++
            field ++ "' in " ++ object_id))
  | some v =>
      .error (.Parse ("Invalid type " ++ reprStr v ++ " for u128 field '" ++
        field ++ "' in " ++ object_id))

/-- `FieldExtractor::get_decimal_from_u64`. -/
def get_decimal_from_u64 (fields : List (String × MoveVal))
    (object_id : String) (field : String) : Except BotError Decimal := do
  let n ← get_u64 fields object_id field
  .ok (n : Rat)

/-- `FieldExtractor::get_decimal_from_u128`: `Decimal::from_u128` fails
once the value exceeds the 96-bit decimal mantissa. -/
def get_decimal_from_u128 (fields : List (String × MoveVal))
    (object_id : String) (field : String) : Except BotError Decimal := do
  let n ← get_u128 fields object_id field
  if n < 2 ^ 96 then .ok (n : Rat)
  else .error (.Parse ("Failed Decimal conversion for '" ++ field ++ "'"))

end FieldExtractor

/-- A registered `PoolParser` trait object (src/types/pool/pool_parser.rs):
its declared DEX, its structural predicate and its decoder. -/
structure PoolParser where
  dex_id : DexId
  can_parse : RawObject → Bool
  parse : RawObject → Except BotError PoolState

/-- `{:?}` rendering of the optional type tag. -/
def optTypeDebug : Option String → String
  | none => "None"
  | some t => "Some(" ++ t ++ ")"

/-- `PoolParserRegistry::parse`: first registered parser whose declared
DEX matches and whose predicate accepts the object. -/
def registryParse (parsers : List PoolParser) (obj : RawObject)
    (dex_id : DexId) : Except BotError PoolState :=
  match parsers with
  | [] =>
      .error (.Parse ("No parser found for DEX " ++ dex_id.name ++
        " and object type " ++ optTypeDebug obj.type_))
  | p :: rest =>
      if p.dex_id = dex_id ∧ p.can_parse obj then p.parse obj
      else registryParse rest obj dex_id

/-- `PoolParserRegistry::parse_batch`: independent best-effort parsing,
dropping failures. -/
def parse_batch (parsers : List PoolParser) (objects : List RawObject)
    (dex_id : DexId) : List PoolState :=
  objects.filterMap (fun obj => (registryParse parsers obj dex_id).toOption)

/-- Index of the first occurrence of a character (`str::find`; byte and
character positions coincide on the ASCII inputs involved). -/
def idxOf? : List Char → Char → Option Nat
  | [], _ => none
  | x :: xs, c => if x = c then some 0 else (idxOf? xs c).map (· + 1)

/-- Index of the last occurrence of a character (`str::rfind`). -/
def lastIdxOf? : List Char → Char → Option Nat
  | [], _ => none
  | x :: xs, c =>
      match lastIdxOf? xs c with
      | some i => some (i + 1)
      | none => if x = c then some 0 else none

namespace CetusPoolParser

/-- `CetusPoolParser::parse_token_info` (src/types/pool/cetus.rs): at
least three `::`-separated segments, the first starting with `0x`. -/
def parse_token_info (token_type : String) : Except BotError TokenInfo :=
  match splitOnDColon token_type with
  | a :: m :: n :: _ =>
      let address := strTrim a
      let moduleName := strTrim m
      let tokenName := strTrim n
      if strStarts address "0x" then
        .ok { symbol := tokenName, address := some address,
              decimals := 9, name := some (moduleName ++ "::" ++ tokenName) }
      else
        .error (.Parse ("Invalid address format: " ++ address))
  | _ => .error (.Parse ("Invalid token type format: " ++ token_type))

/-- The slice of `type_str` strictly between the first `<` and the last
`>` (`&type_str[start + 1..end]`), or the corresponding source errors. -/
def bracket_slice (type_str : String) : Except BotError String :=
  let cs := type_str.toList
  match idxOf? cs ('<') with
  | none => .error (.Parse "No type parameters found")
  | some s =>
      match lastIdxOf? cs ('>') with
      | none => .error (.Parse "Unclosed type parameters")
      | some e => .ok (String.mk ((cs.drop (s + 1)).take (e - (s + 1))))

/-- `params.split(',').map(|s| s.trim())`. -/
def param_tokens (params : String) : List String :=
  (splitOnComma params).map strTrim

/-- `CetusPoolParser::extract_token_types`: slice between the first `<`
and the last `>`, split on commas, require exactly two parameters. -/
def extract_token_types (type_str : String) : Except BotError (TokenInfo × TokenInfo) := do
  let params ← bracket_slice type_str
  match param_tokens params with
  | [t1, t2] => do
      let token_a ← parse_token_info t1
      let token_b ← parse_token_info t2
      .ok (token_a, token_b)
  | other =>
      .error (.Parse ("Expected 2 type parameters, found " ++
        toString other.length))

/-- `CetusPoolParser::parse`; `now()` is the explicit clock argument `t`. -/
def parse (obj : RawObject) (t : Timestamp) : Except BotError PoolState := do
  let fields ← FieldExtractor.extract_fields obj
  let oid := toString obj.object_id
  let pool_id : PoolId := ChainAddress.Sui ⟨obj.object_id⟩
  let reserve_a ← FieldExtractor.get_decimal_from_u128 fields oid "coin_a"
  let reserve_b ← FieldExtractor.get_decimal_from_u128 fields oid "coin_b"
  let liquidity ← FieldExtractor.get_decimal_from_u128 fields oid "liquidity"
  let fee_rate ← FieldExtractor.get_decimal_from_u64 fields oid "fee_rate"
  let type_str ← match obj.type_ with
    | none => Except.error (BotError.Parse "Missing type")
    | some ts => Except.ok ts
  let tokens ← extract_token_types type_str
  Except.ok
    { dex_id := .Cetus, pool_id := pool_id, token_a := tokens.1,
      token_b := tokens.2, reserve_a := reserve_a, reserve_b := reserve_b,
      liquidity := liquidity, fee_rate := fee_rate, block_timestamp := t }

end CetusPoolParser

namespace TokenInfo

end TokenInfo

/-- Modelled from the spec: `PoolStateFetcher::fetch_with_retry` is called
by `SyncOrchestrator::sync_pool` and `sync_pools_batch` but its definition
is absent from the sources.  Per the spec it attempts `fetch_one` up to
`max_retries` times, sleeping `retry_delay` between attempts (the sleep is
unobservable here), and after exhausting the attempts fails with a `Sync`
error embedding the last underlying error and the pool id.  The client maps
an attempt index to that attempt's outcome; `i` is the index of the next
attempt and the second component of the result counts attempts performed. -/
def retryGo {α : Type} (client : Nat → Except String α) (pool_id : String) :
    Nat → Nat → Except BotError α × Nat
  | _, 0 => (.error (.Sync ("Failed to fetch pool " ++ pool_id ++
      ": no attempts allowed")), 0)
  | i, n + 1 =>
      match client i with
      | .ok v => (.ok v, 1)
      | .error e =>
          if n = 0 then
            (.error (.Sync ("Failed to fetch pool " ++ pool_id ++
              " after retries: " ++ e)), 1)
          else
            let r := retryGo client pool_id (i + 1) n
            (r.1, r.2 + 1)

/-- Modelled from the spec: the retry loop entry point, starting at the
first attempt. -/
def fetch_with_retry {α : Type} (client : Nat → Except String α)
    (pool_id : String) (max_retries : Nat) : Except BotError α × Nat :=
  retryGo client pool_id 0 max_retries

/-- The hard ceiling on the number of monitored pools. -/
abbrev pool_ceiling_inv (m : DexManager) : Prop :=
  m.monitored_pools.length ≤ m.max_pools_per_dex * m.dexes.length

/-- A sample pool id. -/
def pA : PoolId := ChainAddress.Sui ⟨1⟩

/-- A second sample pool id. -/
def pB : PoolId := ChainAddress.Sui ⟨2⟩

/-- A manager built at clock 0 with `max_pools_per_dex = 10`,
`state_ttl = 3600`, the Cetus DEX registered and pool `pA` registered
under it (so `pA` was just fetched-fresh relative to any clock within the
TTL). -/
def mgrFresh : DexManager :=
  (((DexManager.with_config 10 3600 0).register_dex .Cetus).2.register_pool
    .Cetus pA).2

/-- A manager with `max_pools_per_dex = 1` and one Cetus pool: the
monitored-pool ceiling `1 × 1` is already reached. -/
def mgrFull : DexManager :=
  (((DexManager.with_config 1 3600 0).register_dex .Cetus).2.register_pool
    .Cetus pA).2

/-- A manager with `max_pools_per_dex = 1`, the Cetus DEX registered and
no pools yet. -/
def mgrCap1 : DexManager :=
  ((DexManager.with_config 1 3600 0).register_dex .Cetus).2

/-- A manager with Cetus and Turbos registered and pool `pA` owned by
Cetus, far below the ceiling. -/
def mgrTwoDex : DexManager :=
  ((((DexManager.with_config 10 3600 0).register_dex .Cetus).2.register_dex
    .Turbos).2.register_pool .Cetus pA).2

/-- A raw Cetus pool object that parses successfully. -/
def rawSample : RawObject :=
  { object_id := 7
    type_ := some "0xbase::clmm::pool::Pool<0xA::m::X, 0xB::n::Y>"
    content := some (.MoveObject (.WithFields
      [("coin_a", .Str "100"), ("coin_b", .Str "200"),
       ("liquidity", .Str "300"), ("fee_rate", .Str "2500")])) }

/-- The pool state `rawSample` parses to at clock 5. -/
def stSample : PoolState :=
  { dex_id := .Cetus
    pool_id := ChainAddress.Sui ⟨7⟩
    token_a := { symbol := "X", address := some "0xA", decimals := 9,
                 name := some "m::X" }
    token_b := { symbol := "Y", address := some "0xB", decimals := 9,
                 name := some "n::Y" }
    reserve_a := 100
    reserve_b := 200
    liquidity := 300
    fee_rate := 2500
    block_timestamp := 5 }

theorem insertSet_mem_self (l : List PoolId) (p : PoolId) :
    p ∈ insertSet l p := by
  unfold insertSet
  split
  · assumption
  · simp

theorem insertSet_mem_mono (l : List PoolId) (p q : PoolId) (h : q ∈ l) :
    q ∈ insertSet l p := by
  unfold insertSet
  split
  · assumption
  · simp [h]

theorem insertSet_of_mem {l : List PoolId} {p : PoolId} (h : p ∈ l) :
    insertSet l p = l := by
  unfold insertSet
  simp [h]

theorem insertSet_length_le (l : List PoolId) (p : PoolId) :
    (insertSet l p).length ≤ l.length + 1 := by
  unfold insertSet
  split
  · omega
  · simp

theorem lookupAssoc_insertAssoc (l : List (PoolId × DexId)) (p : PoolId)
    (d : DexId) : lookupAssoc (insertAssoc l p d) p = some d := by
  induction l with
  | nil => simp [insertAssoc, lookupAssoc]
  | cons kv rest ih =>
      obtain ⟨k, v⟩ := kv
      by_cases hk : k = p
      · simp [insertAssoc, hk, lookupAssoc]
      · simp [insertAssoc, hk, lookupAssoc, ih]

theorem register_pool_error_state {m : DexManager} {d : DexId} {p : PoolId}
    {e : BotError} {m2 : DexManager}
    (h : m.register_pool d p = (.error e, m2)) : m2 = m := by
  unfold DexManager.register_pool at h
  split at h
  · injection h with h1 h2
    exact h2.symm
  · split at h
    · injection h with h1 h2
      exact h2.symm
    · injection h with h1 h2
      exact Except.noConfusion h1

theorem register_pool_ok_self_mem {m : DexManager} {d : DexId} {p : PoolId}
    {u : Unit} {m2 : DexManager}
    (h : m.register_pool d p = (.ok u, m2)) : p ∈ m2.monitored_pools := by
  unfold DexManager.register_pool at h
  split at h
  · injection h with h1 h2
    exact Except.noConfusion h1
  · split at h
    · injection h with h1 h2
      exact Except.noConfusion h1
    · injection h with h1 h2
      rw [← h2]
      exact insertSet_mem_self _ _

theorem register_pool_ok_mem_mono {m : DexManager} {d : DexId} {p : PoolId}
    {u : Unit} {m2 : DexManager} (h : m.register_pool d p = (.ok u, m2))
    {q : PoolId} (hq : q ∈ m.monitored_pools) : q ∈ m2.monitored_pools := by
  unfold DexManager.register_pool at h
  split at h
  · injection h with h1 h2
    exact Except.noConfusion h1
  · split at h
    · injection h with h1 h2
      exact Except.noConfusion h1
    · injection h with h1 h2
      rw [← h2]
      exact insertSet_mem_mono _ _ _ hq

theorem register_pools_ok_mem_mono {d : DexId} :
    ∀ (ps : List PoolId) (m : DexManager) {u : Unit} {m2 : DexManager},
      m.register_pools d ps = (.ok u, m2) →
      ∀ q ∈ m.monitored_pools, q ∈ m2.monitored_pools := by
  intro ps
  induction ps with
  | nil =>
      intro m u m2 h q hq
      unfold DexManager.register_pools at h
      injection h with h1 h2
      rw [← h2]
      exact hq
  | cons p rest ih =>
      intro m u m2 h q hq
      unfold DexManager.register_pools at h
      rcases hrp : m.register_pool d p with ⟨r1, m1⟩
      rcases r1 with e | u1
      · rw [hrp] at h
        injection h with h1 h2
        exact Except.noConfusion h1
      · rw [hrp] at h
        exact ih m1 h q (register_pool_ok_mem_mono hrp hq)

/-- C1: `get_stale_pools` on a manager whose only monitored pool was
registered at clock 0 with `state_ttl = 3600` still returns that pool:
the source returns every monitored pool and never consults
`state_ttl` or any `block_timestamp`. -/
theorem get_stale_pools_returns_fresh_pool :
    mgrFresh.state_ttl = 3600 ∧ mgrFresh.get_stale_pools = [pA] := by
  constructor
  · rfl
  · rfl

/-- C4: registering a pool under an unregistered DEX returns a `Dex` error
and leaves the whole manager (all fields) unchanged. -/
theorem register_pool_unknown_dex_no_mutation :
    ∀ (m : DexManager) (d : DexId) (p : PoolId), d ∉ m.dexes →
      m.register_pool d p
        = (.error (.Dex d ("DEX " ++ d.name ++ " not registered")), m) := by
  intro m d p h
  unfold DexManager.register_pool
  rw [if_pos h]

/-- C4 witness: Turbos is not registered in `mgrFresh`. -/
theorem register_pool_unknown_dex_no_mutation_witness :
    DexId.Turbos ∉ mgrFresh.dexes ∧
    mgrFresh.register_pool .Turbos pB
      = (.error (.Dex .Turbos ("DEX " ++ DexId.Turbos.name ++
          " not registered")), mgrFresh) :=
  ⟨by decide, register_pool_unknown_dex_no_mutation mgrFresh .Turbos pB
    (by decide)⟩

/-- C9: re-registering an already-monitored pool under a second registered
DEX succeeds below the ceiling, leaves the monitored set unchanged (no
duplicate) and silently rebinds the pool→DEX index to the new DEX. -/
theorem register_pool_reassigns_pool_ownership :
    ∀ (m : DexManager) (d1 d2 : DexId) (p : PoolId),
      d1 ∈ m.dexes → d2 ∈ m.dexes → d1 ≠ d2 →
      m.get_monitored_dex_by_pool_id p = some d1 →
      p ∈ m.monitored_pools →
      m.monitored_pools.length < m.max_pools_per_dex * m.dexes.length →
      ∃ m2, m.register_pool d2 p = (.ok (), m2) ∧
        m2.monitored_pools = m.monitored_pools ∧
        m2.get_monitored_dex_by_pool_id p = some d2 ∧
        m2.get_monitored_dex_by_pool_id p ≠ some d1 := by
  intro m d1 d2 p h1 h2 hne hlk hmem hlt
  refine
    ⟨{ m with pool_to_dex := insertAssoc m.pool_to_dex p d2,
              monitored_pools := insertSet m.monitored_pools p },
     ?_, ?_, ?_, ?_⟩
  · unfold DexManager.register_pool
    rw [if_neg (not_not.mpr h2), if_neg (Nat.not_le.mpr hlt)]
  · exact insertSet_of_mem hmem
  · exact lookupAssoc_insertAssoc _ _ _
  · rw [DexManager.get_monitored_dex_by_pool_id]
    rw [lookupAssoc_insertAssoc]
    simp [hne.symm]

/-- C9 witness: `pA` owned by Cetus in `mgrTwoDex` is rebound to Turbos. -/
theorem register_pool_reassigns_pool_ownership_witness :
    ∃ m2, mgrTwoDex.register_pool .Turbos pA = (.ok (), m2) ∧
      m2.monitored_pools = mgrTwoDex.monitored_pools ∧
      m2.get_monitored_dex_by_pool_id pA = some .Turbos ∧
      m2.get_monitored_dex_by_pool_id pA ≠ some .Cetus :=
  register_pool_reassigns_pool_ownership mgrTwoDex .Cetus .Turbos pA
    (by decide) (by decide) (by decide) (by decide) (by decide) (by decide)

theorem register_dex_inv (m : DexManager) (d : DexId)
    (h : pool_ceiling_inv m) : pool_ceiling_inv (m.register_dex d).2 := by
  unfold DexManager.register_dex
  split
  · exact h
  · show m.monitored_pools.length ≤
      m.max_pools_per_dex * (m.dexes ++ [d]).length
    have hm : m.max_pools_per_dex * m.dexes.length ≤
        m.max_pools_per_dex * (m.dexes.length + 1) :=
      Nat.mul_le_mul_left _ (by omega)
    have hlen : (m.dexes ++ [d]).length = m.dexes.length + 1 := by simp
    rw [hlen]
    omega

theorem register_pool_inv (m : DexManager) (d : DexId) (p : PoolId)
    (h : pool_ceiling_inv m) : pool_ceiling_inv (m.register_pool d p).2 := by
  unfold DexManager.register_pool
  split
  · exact h
  · split
    next hc => exact h
    next hc =>
      show (insertSet m.monitored_pools p).length ≤
        m.max_pools_per_dex * m.dexes.length
      have hl := insertSet_length_le m.monitored_pools p
      omega

theorem register_pools_inv (d : DexId) :
    ∀ (ps : List PoolId) (m : DexManager), pool_ceiling_inv m →
      pool_ceiling_inv (m.register_pools d ps).2 := by
  intro ps
  induction ps with
  | nil => intro m h; exact h
  | cons p rest ih =>
      intro m h
      unfold DexManager.register_pools
      rcases hrp : m.register_pool d p with ⟨r1, m1⟩
      rcases r1 with e1 | u1
      · have hm : m1 = m := register_pool_error_state hrp
        subst hm
        exact h
      · have h1 : pool_ceiling_inv m1 := by
          have := register_pool_inv m d p h
          rw [hrp] at this
          exact this
        exact ih m1 h1

theorem register_pools_error_decompose {d : DexId} :
    ∀ (ps : List PoolId) (m : DexManager) {e : BotError} {m2 : DexManager},
      m.register_pools d ps = (.error e, m2) →
      ∃ pre p post, ps = pre ++ p :: post ∧
        m.register_pools d pre = (.ok (), m2) ∧
        m2.register_pool d p = (.error e, m2) ∧
        ∀ q ∈ pre, q ∈ m2.monitored_pools := by
  intro ps
  induction ps with
  | nil =>
      intro m e m2 h
      unfold DexManager.register_pools at h
      injection h with h1 h2
      exact Except.noConfusion h1
  | cons p rest ih =>
      intro m e m2 h
      unfold DexManager.register_pools at h
      rcases hrp : m.register_pool d p with ⟨r1, m1⟩
      rw [hrp] at h
      rcases r1 with e1 | u1
      · injection h with h1 h2
        injection h1 with he
        have hm : m1 = m := register_pool_error_state hrp
        subst he
        subst h2
        subst hm
        exact ⟨[], p, rest, rfl, rfl, hrp, by simp⟩
      · obtain ⟨pre, p2, post, hps, hpre, hfail, hmem⟩ := ih m1 h
        refine ⟨p :: pre, p2, post, by rw [hps]; rfl, ?_, hfail, ?_⟩
        · unfold DexManager.register_pools
          rw [hrp]
          exact hpre
        · intro q hq
          rcases List.mem_cons.mp hq with h1 | h1
          · subst h1
            exact register_pools_ok_mem_mono pre m1 hpre q
              (register_pool_ok_self_mem hrp)
          · exact hmem q h1

/-- C3: the monitored-pool count never exceeds
`max_pools_per_dex × |dexes|`: every registration operation preserves the
ceiling invariant; `register_pool` at or above the ceiling fails with the
manager unchanged; and a failing `register_pools` fails exactly at the
first failing pool of the list, keeping every earlier pool registered. -/
theorem monitored_pool_ceiling :
    (∀ (m : DexManager) (d : DexId), pool_ceiling_inv m →
        pool_ceiling_inv (m.register_dex d).2) ∧
    (∀ (m : DexManager) (d : DexId) (p : PoolId), pool_ceiling_inv m →
        pool_ceiling_inv (m.register_pool d p).2) ∧
    (∀ (m : DexManager) (d : DexId) (ps : List PoolId), pool_ceiling_inv m →
        pool_ceiling_inv (m.register_pools d ps).2) ∧
    (∀ (m : DexManager) (d : DexId) (p : PoolId),
        m.max_pools_per_dex * m.dexes.length ≤ m.monitored_pools.length →
        ∃ e, m.register_pool d p = (.error e, m)) ∧
    (∀ (m : DexManager) (d : DexId) (ps : List PoolId) (e : BotError)
        (m2 : DexManager), m.register_pools d ps = (.error e, m2) →
        ∃ pre p post, ps = pre ++ p :: post ∧
          m.register_pools d pre = (.ok (), m2) ∧
          m2.register_pool d p = (.error e, m2) ∧
          ∀ q ∈ pre, q ∈ m2.monitored_pools) := by
  refine ⟨register_dex_inv, register_pool_inv,
    fun m d ps h => register_pools_inv d ps m h, ?_, ?_⟩
  · intro m d p h
    unfold DexManager.register_pool
    by_cases hd : d ∉ m.dexes
    · rw [if_pos hd]
      exact ⟨_, rfl⟩
    · rw [if_neg hd, if_pos h]
      exact ⟨_, rfl⟩
  · intro m d ps e m2 h
    exact register_pools_error_decompose ps m h

/-- C3 witness: with `max_pools_per_dex = 1` and one DEX, the second pool
of a two-pool registration fails at the ceiling while the first remains
registered. -/
theorem monitored_pool_ceiling_witness :
    pool_ceiling_inv ((DexManager.new 0).register_dex .Cetus).2 ∧
    pool_ceiling_inv (mgrFull.register_pool .Cetus pB).2 ∧
    pool_ceiling_inv (mgrCap1.register_pools .Cetus [pA, pB]).2 ∧
    (∃ e, mgrFull.register_pool .Cetus pB = (.error e, mgrFull)) ∧
    (∃ pre p post, ([pA, pB] : List PoolId) = pre ++ p :: post ∧
      mgrCap1.register_pools .Cetus pre = (.ok (), mgrFull) ∧
      mgrFull.register_pool .Cetus p
        = (.error (.Dex .Cetus "Maximum monitored pools limit reached"),
           mgrFull) ∧
      ∀ q ∈ pre, q ∈ mgrFull.monitored_pools) :=
  ⟨monitored_pool_ceiling.1 (DexManager.new 0) .Cetus (by decide),
   monitored_pool_ceiling.2.1 mgrFull .Cetus pB (by decide),
   monitored_pool_ceiling.2.2.1 mgrCap1 .Cetus [pA, pB] (by decide),
   monitored_pool_ceiling.2.2.2.1 mgrFull .Cetus pB (by decide),
   monitored_pool_ceiling.2.2.2.2 mgrCap1 .Cetus [pA, pB]
     (.Dex .Cetus "Maximum monitored pools limit reached") mgrFull
     (by decide)⟩

theorem length_filterMap_add_countP {α β : Type} (f : α → Option β) :
    ∀ l : List α,
      (l.filterMap f).length + l.countP (fun a => (f a).isNone) = l.length := by
  intro l
  induction l with
  | nil => simp
  | cons a rest ih =>
      rcases hf : f a with _ | b <;>
        simp [List.filterMap_cons, hf, List.countP_cons] <;> omega

theorem containsStr_prefix (sub r : String) : containsStr (sub ++ r) sub :=
  ⟨"", r, rfl⟩

theorem containsStr_suffix (l sub : String) : containsStr (l ++ sub) sub :=
  ⟨l, "", by simp⟩

theorem containsStr_append_left {b sub : String} (a : String)
    (h : containsStr b sub) : containsStr (a ++ b) sub := by
  obtain ⟨l, r, hb⟩ := h
  exact ⟨a ++ l, r, by rw [hb]; simp [String.append_assoc]⟩

theorem containsStr_append_right {a sub : String} (b : String)
    (h : containsStr a sub) : containsStr (a ++ b) sub := by
  obtain ⟨l, r, ha⟩ := h
  exact ⟨l, r ++ b, by rw [ha]; simp [String.append_assoc]⟩

/-- C5: batch parsing is best-effort and never fail-fast: out of `N`
objects of which `M` fail to parse, `parse_batch` returns exactly
`N − M` pool states, and every object whose parse succeeds contributes
its state to the result. -/
theorem parse_batch_best_effort :
    ∀ (parsers : List PoolParser) (objs : List RawObject) (d : DexId),
      (parse_batch parsers objs d).length
          = objs.length -
            objs.countP (fun o => (registryParse parsers o d).toOption.isNone) ∧
      objs.countP (fun o => (registryParse parsers o d).toOption.isNone)
          ≤ objs.length ∧
      ∀ o ∈ objs, ∀ s, registryParse parsers o d = .ok s →
        s ∈ parse_batch parsers objs d := by
  intro parsers objs d
  have hlen := length_filterMap_add_countP
    (fun o => (registryParse parsers o d).toOption) objs
  refine ⟨?_, ?_, ?_⟩
  · simp only [parse_batch]
    omega
  · exact List.countP_le_length _
  · intro o ho s hs
    exact List.mem_filterMap.mpr ⟨o, ho, by rw [hs]; rfl⟩

/-- C5 witness: one parser accepting only objects with a type tag; of
three objects the middle one fails, leaving exactly two results in order. -/
theorem parse_batch_best_effort_witness :
    (parse_batch
        [⟨.Cetus, fun o => o.type_.isSome,
          fun o => .ok { stSample with pool_id := ChainAddress.Sui ⟨o.object_id⟩ }⟩]
        [rawSample, { rawSample with object_id := 8, type_ := none },
         { rawSample with object_id := 9 }] .Cetus).length
      = 3 - 1 ∧
    { stSample with pool_id := ChainAddress.Sui ⟨9⟩ } ∈
      parse_batch
        [⟨.Cetus, fun o => o.type_.isSome,
          fun o => .ok { stSample with pool_id := ChainAddress.Sui ⟨o.object_id⟩ }⟩]
        [rawSample, { rawSample with object_id := 8, type_ := none },
         { rawSample with object_id := 9 }] .Cetus := by
  constructor
  · have h := (parse_batch_best_effort
      [⟨.Cetus, fun o => o.type_.isSome,
        fun o => .ok { stSample with pool_id := ChainAddress.Sui ⟨o.object_id⟩ }⟩]
      [rawSample, { rawSample with object_id := 8, type_ := none },
       { rawSample with object_id := 9 }] .Cetus).1
    rw [h]
    rfl
  · exact (parse_batch_best_effort _ _ _).2.2
      { rawSample with object_id := 9 } (by simp)
      { stSample with pool_id := ChainAddress.Sui ⟨9⟩ } (by rfl)

/-- C6: `PoolParserRegistry::parse` delegates to the first registered
parser (in registration order) whose declared DEX equals the requested id
and whose `can_parse` accepts the object; with no such parser it returns a
`Parse` error whose message contains "No parser found" and names both the
requested DEX and the object's observed type. -/
theorem registry_parse_first_match :
    ∀ (parsers : List PoolParser) (obj : RawObject) (d : DexId),
      (∀ p, parsers.find?
            (fun q => decide (q.dex_id = d) && q.can_parse obj) = some p →
          registryParse parsers obj d = p.parse obj) ∧
      (parsers.find?
            (fun q => decide (q.dex_id = d) && q.can_parse obj) = none →
          ∃ msg, registryParse parsers obj d = .error (.Parse msg) ∧
            containsStr msg "No parser found" ∧
            containsStr msg d.name ∧
            containsStr msg (optTypeDebug obj.type_)) := by
  intro parsers obj d
  induction parsers with
  | nil =>
      constructor
      · intro p hp
        simp [List.find?] at hp
      · intro _
        refine ⟨"No parser found for DEX " ++ d.name ++ " and object type " ++
          optTypeDebug obj.type_, rfl, ?_, ?_, ?_⟩
        · exact containsStr_append_right _ (containsStr_append_right _
            (containsStr_append_right _
              ⟨"", " for DEX ", rfl⟩))
        · exact containsStr_append_right _ (containsStr_append_right _
            (containsStr_suffix _ _))
        · exact containsStr_suffix _ _
  | cons p rest ih =>
      by_cases hc : p.dex_id = d ∧ p.can_parse obj
      · have hred : List.find?
            (fun q => decide (q.dex_id = d) && q.can_parse obj) (p :: rest)
            = some p := by
          simp [List.find?_cons, hc.1, hc.2]
        constructor
        · intro q hq
          rw [hred] at hq
          injection hq with hpq
          subst hpq
          simp [registryParse, hc]
        · intro hq
          rw [hred] at hq
          exact Option.noConfusion hq
      · have hb2 : (decide (p.dex_id = d) && p.can_parse obj) = false := by
          by_cases h1 : p.dex_id = d
          · have h2 : p.can_parse obj = false := by
              cases hcp : p.can_parse obj
              · rfl
              · exact absurd ⟨h1, hcp⟩ hc
            simp [h1, h2]
          · simp [h1]
        have hred : List.find?
            (fun q => decide (q.dex_id = d) && q.can_parse obj) (p :: rest)
            = List.find?
                (fun q => decide (q.dex_id = d) && q.can_parse obj) rest := by
          simp only [List.find?_cons]
          rw [hb2]
        have hreg : registryParse (p :: rest) obj d
            = registryParse rest obj d := by
          simp [registryParse, hc]
        constructor
        · intro q hq
          rw [hred] at hq
          rw [hreg]
          exact ih.1 q hq
        · intro hq
          rw [hred] at hq
          rw [hreg]
          exact ih.2 hq

/-- C6 witness: a matching and a non-matching registry over `rawSample`. -/
theorem registry_parse_first_match_witness :
    registryParse [⟨.Cetus, fun _ => true, fun _ => .ok stSample⟩]
        rawSample .Cetus = .ok stSample ∧
    (∃ msg, registryParse [⟨.Cetus, fun _ => true, fun _ => .ok stSample⟩]
        rawSample .Turbos = .error (.Parse msg) ∧
      containsStr msg "No parser found" ∧
      containsStr msg DexId.Turbos.name ∧
      containsStr msg (optTypeDebug rawSample.type_)) :=
  ⟨(registry_parse_first_match
      [⟨.Cetus, fun _ => true, fun _ => .ok stSample⟩] rawSample .Cetus).1
      ⟨.Cetus, fun _ => true, fun _ => .ok stSample⟩ (by rfl),
   (registry_parse_first_match
      [⟨.Cetus, fun _ => true, fun _ => .ok stSample⟩] rawSample .Turbos).2
      (by rfl)⟩

theorem retryGo_success {α : Type} (client : Nat → Except String α)
    (pid : String) :
    ∀ (k n i : Nat) (v : α), k < n →
      (∀ j, j < k → ∃ e, client (i + j) = .error e) →
      client (i + k) = .ok v →
      retryGo client pid i n = (.ok v, k + 1) := by
  intro k
  induction k with
  | zero =>
      intro n i v hlt hfail hok
      obtain ⟨n2, rfl⟩ : ∃ n2, n = n2 + 1 := ⟨n - 1, by omega⟩
      have hok2 : client i = .ok v := by simpa using hok
      simp [retryGo, hok2]
  | succ k ih =>
      intro n i v hlt hfail hok
      obtain ⟨n2, rfl⟩ : ∃ n2, n = n2 + 1 := ⟨n - 1, by omega⟩
      obtain ⟨e, he⟩ := hfail 0 (by omega)
      have he2 : client i = .error e := by simpa using he
      have hn2 : n2 ≠ 0 := by omega
      have hrec := ih n2 (i + 1) v (by omega)
        (fun j hj => by
          have hf := hfail (j + 1) (by omega)
          rwa [show i + (j + 1) = i + 1 + j by omega] at hf)
        (by rwa [show i + (k + 1) = i + 1 + k by omega] at hok)
      simp only [retryGo, he2, if_neg hn2]
      simp [hrec]

theorem retryGo_all_fail {α : Type} (client : Nat → Except String α)
    (pid : String) (h : ∀ j, ∃ e, client j = .error e) :
    ∀ (n i : Nat), 1 ≤ n →
      ∃ e, client (i + n - 1) = .error e ∧
        retryGo client pid i n
          = (.error (.Sync ("Failed to fetch pool " ++ pid ++
              " after retries: " ++ e)), n) := by
  intro n
  induction n with
  | zero =>
      intro i h1
      omega
  | succ n ih =>
      intro i _
      obtain ⟨e, he⟩ := h i
      by_cases hn : n = 0
      · subst hn
        refine ⟨e, by simpa using he, ?_⟩
        simp [retryGo, he]
      · obtain ⟨e2, he2, hr⟩ := ih (i + 1) (by omega)
        refine ⟨e2, ?_, ?_⟩
        · rwa [show i + 1 + n - 1 = i + (n + 1) - 1 by omega] at he2
        · simp only [retryGo, he, if_neg hn]
          simp [hr]

/-- C2: `fetch_with_retry` (modelled from the spec; absent from the
sources, which only call it) succeeds after exactly `k + 1` attempts when
the client fails `k < max_retries` times and then succeeds, and on a
client that always fails performs exactly `max_retries` attempts and
returns a `Sync` error embedding the last underlying error and the pool
id. -/
theorem fetch_with_retry_attempts :
    (∀ (α : Type) (client : Nat → Except String α) (pid : String)
        (maxR k : Nat) (v : α), k < maxR →
        (∀ j, j < k → ∃ e, client j = .error e) →
        client k = .ok v →
        fetch_with_retry client pid maxR = (.ok v, k + 1)) ∧
    (∀ (α : Type) (client : Nat → Except String α) (pid : String)
        (maxR : Nat), 1 ≤ maxR →
        (∀ j, ∃ e, client j = .error e) →
        ∃ e, client (maxR - 1) = .error e ∧
          fetch_with_retry client pid maxR
            = (.error (.Sync ("Failed to fetch pool " ++ pid ++
                " after retries: " ++ e)), maxR)) := by
  constructor
  · intro α client pid maxR k v hlt hfail hok
    exact retryGo_success client pid k maxR 0 v hlt
      (fun j hj => by simpa using hfail j hj) (by simpa using hok)
  · intro α client pid maxR hge h
    have := retryGo_all_fail client pid h maxR 0 hge
    simpa using this

/-- C2 witness: a client failing once then succeeding takes two attempts;
a client that always fails exhausts both attempts of `max_retries = 2`. -/
theorem fetch_with_retry_attempts_witness :
    fetch_with_retry
        (fun i => if i = 0 then Except.error "boom" else Except.ok 42)
        "pool-1" 3 = (.ok 42, 2) ∧
    ∃ e, (fun _ : Nat => (Except.error "down" : Except String Nat)) (2 - 1)
        = Except.error e ∧
      fetch_with_retry
          (fun _ : Nat => (Except.error "down" : Except String Nat))
          "pool-2" 2
        = (.error (.Sync ("Failed to fetch pool pool-2 after retries: "
            ++ e)), 2) :=
  ⟨fetch_with_retry_attempts.1 Nat
      (fun i => if i = 0 then Except.error "boom" else Except.ok 42)
      "pool-1" 3 1 42 (by omega)
      (fun j hj => ⟨"boom", by
        have hj0 : j = 0 := by omega
        subst hj0
        rfl⟩)
      (by rfl),
   fetch_with_retry_attempts.2 Nat
      (fun _ : Nat => (Except.error "down" : Except String Nat))
      "pool-2" 2 (by omega) (fun j => ⟨"down", rfl⟩)⟩

theorem exceptBind_eq_ok {ε α β : Type} {x : Except ε α} {f : α → Except ε β}
    {b : β} : x >>= f = .ok b ↔ ∃ a, x = .ok a ∧ f a = .ok b := by
  cases x <;> simp [Bind.bind, Except.bind]

/-- C8: the `block_timestamp` of every successfully parsed Cetus pool
state is the local clock at parse time (`now()`), regardless of the raw
object's contents — the parser never reads a timestamp from the chain
data. -/
theorem cetus_parse_timestamp_is_observation_time :
    ∀ (obj : RawObject) (t : Timestamp) (st : PoolState),
      CetusPoolParser.parse obj t = .ok st → st.block_timestamp = t := by
  intro obj t st h
  unfold CetusPoolParser.parse at h
  rcases hty : obj.type_ with _ | tystr <;> rw [hty] at h
  · simp only [exceptBind_eq_ok] at h
    obtain ⟨fields, h1, ra, h2, rb, h3, lq, h4, fr, h5, hrest⟩ := h
    simp [Bind.bind, Except.bind] at hrest
  · simp only [exceptBind_eq_ok] at h
    obtain ⟨fields, h1, ra, h2, rb, h3, lq, h4, fr, h5, y, hy, tk, h7, h8⟩ := h
    injection h8 with h9
    rw [← h9]


/-- C8 witness: `rawSample` parsed at local clock 5 gets
`block_timestamp = 5`, though nothing in the raw object says 5. -/
theorem cetus_parse_timestamp_witness :
    ∃ st, CetusPoolParser.parse rawSample 5 = .ok st ∧
      st.block_timestamp = 5 :=
  ⟨stSample, by decide,
   cetus_parse_timestamp_is_observation_time rawSample 5 stSample (by decide)⟩

